import Mathlib

/-!
Verification of the grading, scoring and role-assignment core of the
exam-ace application.

The definitions below are shallow embeddings of the code in
`src/pages/student/StudentResults.tsx` (the `StudentResults`, `ReportCard`
and `SubmissionDetail` components) and of the final
`public.handle_new_user` trigger function in
`supabase/migrations/20260117133000_perf_rls_and_admin_fix.sql`.

JavaScript numbers are modelled by `JSNum`: the scores involved are exact
decimal values, so the only non-rational behaviour that can arise in the
translated expressions is division by zero, which JavaScript maps to
`NaN` or `±Infinity`; `JSNum` carries those three non-finite values
explicitly.  `Math.round x` for finite `x` agrees with the Mathlib
`round : ℚ → ℤ` (both are `⌊x + 1/2⌋`).
-/

/-- Model of a JavaScript number as used by the scoring code: a finite
rational, or one of the non-finite values produced by division by zero. -/
inductive JSNum where
  | fin (q : ℚ)
  | posInf
  | negInf
  | nan
deriving DecidableEq

/-- JavaScript division `a / b`: for `b = 0` it yields `Infinity`,
`-Infinity` or `NaN` according to the sign of `a`. -/
def jsDiv (a b : ℚ) : JSNum :=
  if b = 0 then
    if 0 < a then .posInf else if a < 0 then .negInf else .nan
  else .fin (a / b)

/-- JavaScript multiplication by the positive constant `100`
(as in `(x / y) * 100`): it preserves the non-finite values. -/
def jsMul100 : JSNum → JSNum
  | .fin q => .fin (q * 100)
  | x => x

/-- JavaScript `Math.round`: rounds a finite value half-up
(`⌊x + 1/2⌋`, the Mathlib `round`) and fixes `NaN` and `±Infinity`. -/
def jsRound : JSNum → JSNum
  | .fin q => .fin ((round q : ℤ) : ℚ)
  | x => x

/-- JavaScript comparison `x >= c` for a finite right operand:
`NaN >= c` is false, `Infinity >= c` is true, `-Infinity >= c` is false. -/
def jsGe (x : JSNum) (c : ℚ) : Bool :=
  match x with
  | .fin q => decide (c ≤ q)
  | .posInf => true
  | .negInf => false
  | .nan => false

/-- Letter grades; `NA` is the `N/A` string returned by
`calculateStats` on an empty result list. -/
inductive Grade where
  | A | B | C | D | F | NA
deriving DecidableEq

/-- An exam row as embedded in a student result
(`exam:exams(title, subject, results_published)`). -/
structure ExamRow where
  subject : String
  results_published : Bool
deriving DecidableEq

/-- A row of `exam_submissions` joined with its exam, as used by the
`StudentResults` and `ReportCard` components.  `total_score` and
`max_score` are numeric columns (`r.total_score || 0` in
`calculateStats` is the identity on a numeric value). -/
structure ResultRow where
  total_score : ℚ
  max_score : ℚ
  is_graded : Bool
  exam : ExamRow
deriving DecidableEq

/-- `StudentResults` line 87 and the `ReportCard` percentage cell
(line 407): `Math.round((total_score / max_score) * 100)`, with no guard
against `max_score = 0`. -/
def resultPct (total_score max_score : ℚ) : JSNum :=
  jsRound (jsMul100 (jsDiv total_score max_score))

/-- `getGrade` of `StudentResults` (lines 71-77): buckets an
already-computed percentage and pairs it with a display colour. -/
def getGrade (pct : JSNum) : Grade × String :=
  if jsGe pct 90 then (.A, "text-success")
  else if jsGe pct 80 then (.B, "text-success")
  else if jsGe pct 70 then (.C, "text-warning")
  else if jsGe pct 60 then (.D, "text-warning")
  else (.F, "text-destructive")

/-- `getResultGrade` of `ReportCard` (lines 240-247): recomputes the
(unrounded) percentage from score and max and buckets it. -/
def getResultGrade (score max : ℚ) : Grade :=
  let pct := jsMul100 (jsDiv score max)
  if jsGe pct 90 then .A
  else if jsGe pct 80 then .B
  else if jsGe pct 70 then .C
  else if jsGe pct 60 then .D
  else .F

/-- The pass badge of `StudentResults` (line 107): `pct >= 60` shows
"Passed". -/
def showsPassed (pct : JSNum) : Bool := jsGe pct 60

/-- Whether the score/grade block is rendered for a result in the
`StudentResults` list (line 101): gated on `result.exam?.results_published`
alone. -/
def scoreDetailShown (r : ResultRow) : Bool := r.exam.results_published

/-- Whether the "Results Pending" badge is rendered instead
(line 110). -/
def pendingShown (r : ResultRow) : Bool := !r.exam.results_published

/-- Whether the "View Detail" button is rendered (line 112): gated on
`result.is_graded` alone. -/
def viewDetailShown (r : ResultRow) : Bool := r.is_graded

/-- The rows `fetchReportData` of `ReportCard` delivers: the query keeps
rows with `is_graded = true`, the filter on the embedded exam nulls the
`exam` object when `results_published` is false, and
`(results || []).filter(r => r.exam)` then drops those rows — net effect:
rows with `is_graded` and `exam.results_published` both true. -/
def reportCardResults (rows : List ResultRow) : List ResultRow :=
  rows.filter (fun r => r.is_graded && r.exam.results_published)

/-- The record returned by `calculateStats` of `ReportCard`. -/
structure Stats where
  average : ℤ
  totalObtained : ℚ
  totalMax : ℚ
  grade : Grade
deriving DecidableEq

/-- `calculateStats` of `ReportCard` (lines 224-238): weighted totals over
all fetched results, percentage guarded against `totalMax = 0`, letter
grade bucketed from the unrounded average, average rounded for display. -/
def calculateStats (results : List ResultRow) : Stats :=
  if results = [] then ⟨0, 0, 0, .NA⟩
  else
    let totalObtained := results.foldl (fun sum r => sum + r.total_score) 0
    let totalMax := results.foldl (fun sum r => sum + r.max_score) 0
    let average : ℚ := if 0 < totalMax then totalObtained / totalMax * 100 else 0
    let grade : Grade :=
      if 90 ≤ average then .A
      else if 80 ≤ average then .B
      else if 70 ≤ average then .C
      else if 60 ≤ average then .D
      else .F
    ⟨round average, totalObtained, totalMax, grade⟩

/-- The letter-grade bucketing table as the specification states it:
`pct ≥ 90 → A`, `≥80 → B`, `≥70 → C`, `≥60 → D`, else `F`.  Used as the
reference the three bucketing sites of the code are compared against. -/
def specLetter (pct : ℚ) : Grade :=
  if 90 ≤ pct then .A
  else if 80 ≤ pct then .B
  else if 70 ≤ pct then .C
  else if 60 ≤ pct then .D
  else .F

-- Sanity checks on the embedding.
example : resultPct 15 20 = .fin 75 := by
  simp only [resultPct, jsDiv, jsMul100, jsRound]
  norm_num
example : resultPct 5 0 = .posInf := by
  simp only [resultPct, jsDiv, jsMul100, jsRound]
  norm_num
example : resultPct 0 0 = .nan := by
  simp only [resultPct, jsDiv, jsMul100, jsRound]
  norm_num
example : (getGrade (.fin 89)).1 = .B := by
  simp only [getGrade, jsGe]
  norm_num
example : getResultGrade 448 500 = .B := by
  simp only [getResultGrade, jsDiv, jsMul100, jsGe]
  norm_num

/-!
## The grading write (`saveGrading` of `SubmissionDetail`)

`saveGrading` (StudentResults.tsx lines 774-810) iterates over the
in-memory `answers` array, issuing one `student_answers` update per
answer (writing `is_correct`, `marks_awarded`, `feedback`) and throwing
on the first error; it then computes
`totalScore = answers.reduce((sum, a) => sum + (a.marks_awarded || 0), 0)`
and issues a single `exam_submissions` update setting `total_score` and
`is_graded = true`, throwing on error.  Storage failures are modelled by
a predicate `fail : ℕ → Bool` (the k-th answer update errors) and a flag
`subFail` (the submission update errors); a thrown error is caught by the
surrounding `try`/`catch`, leaving whatever was already written in
place — there is no transaction. -/

/-- An answer row, both as held in the component state and as persisted
in `student_answers`; `question_marks` is the `marks` of the joined question
(the maximum for this answer) and is never written by grading. -/
structure AnswerRow where
  id : ℕ
  is_correct : Option Bool
  marks_awarded : Option ℚ
  feedback : Option String
  question_marks : ℚ
deriving DecidableEq

/-- The persisted state touched by one grading pass: the `student_answers` rows of the
submission and its `total_score` / `is_graded` columns. -/
structure GradingState where
  answers : List AnswerRow
  total_score : ℚ
  is_graded : Bool
deriving DecidableEq

/-- One `student_answers` update: the row with matching `id` receives the
in-memory `is_correct`, `marks_awarded` and `feedback`. -/
def updateAnswerRow (rows : List AnswerRow) (a : AnswerRow) : List AnswerRow :=
  rows.map fun r =>
    if r.id = a.id then
      { r with is_correct := a.is_correct, marks_awarded := a.marks_awarded,
               feedback := a.feedback }
    else r

/-- The `for (const answer of answers)` loop: applies the updates in
order, aborting (with the rows written so far kept) when an update
fails.  `fail k` says whether the update of the k-th iteration errors. -/
def runAnswerUpdates (fail : ℕ → Bool) (answers rows : List AnswerRow) :
    Bool × List AnswerRow :=
  match answers with
  | [] => (true, rows)
  | a :: rest =>
    if fail 0 then (false, rows)
    else runAnswerUpdates (fun k => fail (k + 1)) rest (updateAnswerRow rows a)

/-- `totalScore = answers.reduce((sum, a) => sum + (a.marks_awarded || 0), 0)`:
a `null` (`none`) `marks_awarded` contributes `0`. -/
def totalScoreOf (answers : List AnswerRow) : ℚ :=
  answers.foldl (fun sum a => sum + a.marks_awarded.getD 0) 0

/-- `saveGrading`: answer updates first, then the submission update.  The
returned flag is `true` iff no update failed (success toast); on a
failure the state already written stays written. -/
def saveGrading (fail : ℕ → Bool) (subFail : Bool) (answers : List AnswerRow)
    (st : GradingState) : Bool × GradingState :=
  let r := runAnswerUpdates fail answers st.answers
  if !r.1 then (false, { st with answers := r.2 })
  else if subFail then (false, { st with answers := r.2 })
  else (true, { answers := r.2, total_score := totalScoreOf answers,
                is_graded := true })

/-!
## Role assignment (`handle_new_user`)

The operative definition is the one installed last, in
`20260117133000_perf_rls_and_admin_fix.sql` (lines 64-103).  It reads
`initial_role := COALESCE(NEW.raw_user_meta_data ->> role, student)`
as text, inserts the profile with `ON CONFLICT (user_id) DO NOTHING`,
inserts `(user_id, initial_role::app_role)` into `user_roles` with
`ON CONFLICT (user_id, role) DO NOTHING`, and finally syncs the role
string into `auth.users.raw_app_metadata`, absorbing any error of that
last update.  A failing enum cast raises out of the trigger, aborting the
whole signup transaction — modelled by returning `Except.error` with no
state change. -/

/-- The `app_role` enum after the `admin` value was added. -/
inductive AppRole where
  | student | teacher | admin
deriving DecidableEq

/-- The cast `text::public.app_role`: succeeds exactly on the labels of the
enum. -/
def parseAppRole (s : String) : Option AppRole :=
  if s = "student" then some .student
  else if s = "teacher" then some .teacher
  else if s = "admin" then some .admin
  else none

/-- A `public.profiles` row (the columns the trigger writes). -/
structure ProfileRow where
  user_id : ℕ
  full_name : String
  email : String
deriving DecidableEq

/-- A `public.user_roles` row. -/
structure RoleRow where
  user_id : ℕ
  role : AppRole
deriving DecidableEq

/-- The state the trigger touches: `profiles`, `user_roles`, and the
role string synced into `raw_app_metadata` of each user. -/
structure IdentityDB where
  profiles : List ProfileRow
  user_roles : List RoleRow
  app_metadata : List (ℕ × String)
deriving DecidableEq

/-- The metadata sync: set the `role` key of the `raw_app_metadata` row of the user (the `auth.users` row for `uid` exists, the trigger
fires after its insert). -/
def setMetaRole (meta : List (ℕ × String)) (uid : ℕ) (r : String) :
    List (ℕ × String) :=
  (uid, r) :: meta.filter (fun p => p.1 ≠ uid)

/-- `public.handle_new_user` of `20260117133000_perf_rls_and_admin_fix.sql`.
`metaFail` models the caught exception of the metadata-sync update (a
warning is raised and the trigger proceeds).  An invalid enum cast
aborts the transaction: nothing is committed and the signup fails. -/
def handle_new_user (metaFail : Bool) (db : IdentityDB) (uid : ℕ)
    (metaRole metaFullName : Option String) (email : String) :
    Except String IdentityDB :=
  let initial_role : String := metaRole.getD "student"
  match parseAppRole initial_role with
  | none => .error "invalid input value for enum app_role"
  | some r =>
    let profiles :=
      if db.profiles.any (fun p => p.user_id = uid) then db.profiles
      else db.profiles ++ [⟨uid, metaFullName.getD email, email⟩]
    let roles :=
      if db.user_roles.any (fun x => x.user_id = uid && x.role = r) then
        db.user_roles
      else db.user_roles ++ [⟨uid, r⟩]
    let meta :=
      if metaFail then db.app_metadata
      else setMetaRole db.app_metadata uid initial_role
    .ok ⟨profiles, roles, meta⟩

-- Sanity checks on the grading and identity embeddings.
example :
    saveGrading (fun _ => false) false
      [⟨0, some true, some 5, none, 5⟩, ⟨1, some false, some 3, none, 10⟩]
      ⟨[⟨0, none, none, none, 5⟩, ⟨1, none, none, none, 10⟩], 0, false⟩ =
    (true, ⟨[⟨0, some true, some 5, none, 5⟩, ⟨1, some false, some 3, none, 10⟩],
            8, true⟩) := by
  simp [saveGrading, runAnswerUpdates, updateAnswerRow, totalScoreOf]
  norm_num
example :
    handle_new_user false ⟨[], [], []⟩ 1 (some "teacher") none "t@x" =
    .ok ⟨[⟨1, "t@x", "t@x"⟩], [⟨1, .teacher⟩], [(1, "teacher")]⟩ := by rfl
example :
    handle_new_user false ⟨[], [], []⟩ 1 (some "superuser") none "t@x" =
    .error "invalid input value for enum app_role" := by rfl

/-!
## Helper lemmas
-/

/-- Folding `s + f x` over a list adds the mapped sum to the seed. -/
theorem foldl_add_map_sum {α : Type} (f : α → ℚ) (l : List α) (init : ℚ) :
    l.foldl (fun s x => s + f x) init = init + (l.map f).sum := by
  induction l generalizing init with
  | nil => simp
  | cons a t ih => simp [List.foldl_cons, ih (init + f a)]; ring

/-- If no answer update fails, the loop applies every update in order. -/
theorem runAnswerUpdates_ok (answers : List AnswerRow) (fail : ℕ → Bool)
    (rows : List AnswerRow) (h : ∀ k, k < answers.length → fail k = false) :
    runAnswerUpdates fail answers rows =
      (true, answers.foldl updateAnswerRow rows) := by
  induction answers generalizing fail rows with
  | nil => simp [runAnswerUpdates]
  | cons a rest ih =>
    have h0 : fail 0 = false := h 0 (by simp)
    simp only [runAnswerUpdates, h0, Bool.false_eq_true, if_false, List.foldl_cons]
    exact ih (fun k => fail (k + 1)) (updateAnswerRow rows a)
      (fun k hk => h (k + 1) (by simpa using Nat.succ_lt_succ hk))

/-- If the k-th answer update fails (and none before it does), the loop
aborts having applied exactly the first k updates. -/
theorem runAnswerUpdates_failAt (answers : List AnswerRow) (k : ℕ)
    (fail : ℕ → Bool) (rows : List AnswerRow)
    (h1 : ∀ j, j < k → fail j = false) (h2 : fail k = true)
    (h3 : k < answers.length) :
    runAnswerUpdates fail answers rows =
      (false, (answers.take k).foldl updateAnswerRow rows) := by
  induction answers generalizing k fail rows with
  | nil => simp at h3
  | cons a rest ih =>
    cases k with
    | zero => simp [runAnswerUpdates, h2]
    | succ k =>
      have h0 : fail 0 = false := h1 0 (Nat.succ_pos k)
      simp only [runAnswerUpdates, h0, Bool.false_eq_true, if_false,
        List.take_succ_cons, List.foldl_cons]
      exact ih k (fun j => fail (j + 1)) (updateAnswerRow rows a)
        (fun j hj => h1 (j + 1) (Nat.succ_lt_succ hj)) h2
        (Nat.lt_of_succ_lt_succ h3)

/-- `totalScoreOf` as a mapped sum. -/
theorem totalScoreOf_eq_sum (answers : List AnswerRow) :
    totalScoreOf answers =
      (answers.map (fun a => a.marks_awarded.getD 0)).sum := by
  simpa using foldl_add_map_sum (fun a => a.marks_awarded.getD 0) answers 0

/-- When every answer has awarded marks, the coerced sum is the sum of
those marks. -/
theorem sum_getD_of_all_some (answers : List AnswerRow) (ms : List ℚ)
    (h : answers.map (fun a => a.marks_awarded) = ms.map some) :
    (answers.map (fun a => a.marks_awarded.getD 0)).sum = ms.sum := by
  induction answers generalizing ms with
  | nil =>
    cases ms with
    | nil => simp
    | cons q t => simp at h
  | cons a rest ih =>
    cases ms with
    | nil => simp at h
    | cons q t =>
      simp only [List.map_cons, List.cons.injEq] at h
      simp [h.1, ih t h.2]

/-- Null marks contribute nothing: the coerced sum equals the sum over
the answers that do have awarded marks. -/
theorem sum_getD_filter_isSome (l : List AnswerRow) :
    (l.map (fun a => a.marks_awarded.getD 0)).sum =
      ((l.filter (fun a => a.marks_awarded.isSome)).map
        (fun a => a.marks_awarded.getD 0)).sum := by
  induction l with
  | nil => simp
  | cons a rest ih =>
    by_cases h : a.marks_awarded.isSome
    · simp [List.filter_cons, h, ih]
    · have hn : a.marks_awarded = none := Option.not_isSome_iff_eq_none.mp h
      simp [List.filter_cons, h, hn, ih]

/-- An update whose id differs from the head row leaves the head row in
place. -/
theorem updateAnswerRow_cons (x : AnswerRow) (rows : List AnswerRow)
    (a : AnswerRow) (h : x.id ≠ a.id) :
    updateAnswerRow (x :: rows) a = x :: updateAnswerRow rows a := by
  simp [updateAnswerRow, h]

/-- A batch of updates none of which targets the head row passes over
it. -/
theorem foldl_update_head_skip (answers : List AnswerRow) (x : AnswerRow)
    (rows : List AnswerRow) (h : ∀ a ∈ answers, x.id ≠ a.id) :
    answers.foldl updateAnswerRow (x :: rows) =
      x :: answers.foldl updateAnswerRow rows := by
  induction answers generalizing rows with
  | nil => simp
  | cons a rest ih =>
    simp only [List.foldl_cons,
      updateAnswerRow_cons x rows a (h a (by simp))]
    exact ih (updateAnswerRow rows a) (fun a' ha' => h a' (by simp [ha']))

/-- Updating a batch headed by the matching row rewrites exactly that
row when no other row shares the id. -/
theorem updateAnswerRow_match (rows : List AnswerRow) (a r : AnswerRow)
    (hmatch : r.id = a.id) (hrest : ∀ x ∈ rows, x.id ≠ a.id) :
    ∃ u : AnswerRow, updateAnswerRow (r :: rows) a = u :: rows ∧
      u.id = r.id ∧ u.marks_awarded = a.marks_awarded := by
  refine ⟨{ r with is_correct := a.is_correct,
                   marks_awarded := a.marks_awarded,
                   feedback := a.feedback },
          ?_, rfl, rfl⟩
  simp only [updateAnswerRow, List.map_cons, if_pos hmatch]
  congr 1
  have : ∀ x ∈ rows,
      (if x.id = a.id then
        { x with is_correct := a.is_correct,
                 marks_awarded := a.marks_awarded,
                 feedback := a.feedback }
       else x) = x := by
    intro x hx
    simp [hrest x hx]
  exact (List.map_congr_left this).trans (List.map_id rows)

/-- When the in-memory answers line up one-to-one with the persisted rows
(same ids, in order, no duplicate ids), the batch of updates writes the
supplied `marks_awarded` of every answer verbatim. -/
theorem foldl_update_marks (answers rows : List AnswerRow)
    (hid : answers.map (fun a => a.id) = rows.map (fun r => r.id))
    (hnd : (answers.map (fun a => a.id)).Nodup) :
    (answers.foldl updateAnswerRow rows).map (fun r => r.marks_awarded) =
      answers.map (fun a => a.marks_awarded) := by
  induction answers generalizing rows with
  | nil =>
    cases rows with
    | nil => simp
    | cons r t => simp at hid
  | cons a rest ih =>
    cases rows with
    | nil => simp at hid
    | cons r rrest =>
      simp only [List.map_cons, List.cons.injEq] at hid
      simp only [List.map_cons, List.nodup_cons] at hnd
      have hrest : ∀ x ∈ rrest, x.id ≠ a.id := by
        intro x hx hcontra
        have : x.id ∈ rest.map (fun t => t.id) := by
          rw [hid.2]; exact List.mem_map_of_mem _ hx
        exact hnd.1 (by simpa [← hcontra] using this)
      obtain ⟨u, hu, huid, humarks⟩ :=
        updateAnswerRow_match rrest a r hid.1.symm hrest
      have hskip : ∀ x ∈ rest, u.id ≠ x.id := by
        intro x hx hcontra
        have hmem : x.id ∈ rest.map (fun t => t.id) :=
          List.mem_map_of_mem _ hx
        have hxa : a.id = x.id := by rw [hid.1, ← huid, hcontra]
        exact hnd.1 (by rw [hxa]; exact hmem)
      calc ((a :: rest).foldl updateAnswerRow (r :: rrest)).map
            (fun t => t.marks_awarded)
          = (rest.foldl updateAnswerRow (u :: rrest)).map
              (fun t => t.marks_awarded) := by
            simp [List.foldl_cons, hu]
        _ = a.marks_awarded :: rest.map (fun t => t.marks_awarded) := by
            rw [foldl_update_head_skip rest u rrest hskip]
            simp [humarks, ih rrest hid.2 hnd.2]
        _ = (a :: rest).map (fun t => t.marks_awarded) := by simp

/-!
## Claim theorems: the grading write
-/

/-- C1 counterexample: a grading pass over two answers whose second
answer update fails does leave the submission ungraded with its prior
total, but the first answer grade HAS been persisted (its stored
`marks_awarded` went from `none` to `some 5`), refuting the claim that
no answer grade is persisted. -/
theorem saveGrading_partial_write_on_failure :
    saveGrading (fun k => k == 1) false
      [⟨0, some true, some 5, none, 5⟩, ⟨1, some false, some 3, none, 10⟩]
      ⟨[⟨0, none, none, none, 5⟩, ⟨1, none, none, none, 10⟩], 0, false⟩ =
    (false, ⟨[⟨0, some true, some 5, none, 5⟩, ⟨1, none, none, none, 10⟩],
             0, false⟩) ∧
    some (5 : ℚ) ≠ (none : Option ℚ) := by
  constructor
  · simp [saveGrading, runAnswerUpdates, updateAnswerRow]
  · simp

/-- C1 (amended): the grading write is not atomic.  If the k-th answer
update fails (none before it failing), the invocation reports failure
and the submission keeps its prior `is_graded` and `total_score`, but
the first k answer grades are persisted. -/
theorem saveGrading_failure_keeps_submission_prior_state
    (fail : ℕ → Bool) (subFail : Bool) (answers : List AnswerRow)
    (st : GradingState) (k : ℕ)
    (h1 : ∀ j, j < k → fail j = false) (h2 : fail k = true)
    (h3 : k < answers.length) :
    (saveGrading fail subFail answers st).1 = false ∧
    (saveGrading fail subFail answers st).2.is_graded = st.is_graded ∧
    (saveGrading fail subFail answers st).2.total_score = st.total_score ∧
    (saveGrading fail subFail answers st).2.answers =
      (answers.take k).foldl updateAnswerRow st.answers := by
  have hrun := runAnswerUpdates_failAt answers k fail st.answers h1 h2 h3
  refine ⟨?_, ?_, ?_, ?_⟩ <;> simp [saveGrading, hrun]

/-- C1 witness: the amended theorem applied to a concrete two-answer
grading pass failing at index 1. -/
theorem saveGrading_failure_keeps_submission_prior_state_witness :
    (saveGrading (fun k => k == 1) true
      [⟨0, some true, some 5, none, 5⟩, ⟨1, some false, some 3, none, 10⟩]
      ⟨[⟨0, none, none, none, 5⟩, ⟨1, none, none, none, 10⟩], 7, false⟩).1 =
      false ∧
    (saveGrading (fun k => k == 1) true
      [⟨0, some true, some 5, none, 5⟩, ⟨1, some false, some 3, none, 10⟩]
      ⟨[⟨0, none, none, none, 5⟩, ⟨1, none, none, none, 10⟩],
       7, false⟩).2.is_graded =
      (⟨[⟨0, none, none, none, 5⟩, ⟨1, none, none, none, 10⟩], 7, false⟩ :
        GradingState).is_graded ∧
    (saveGrading (fun k => k == 1) true
      [⟨0, some true, some 5, none, 5⟩, ⟨1, some false, some 3, none, 10⟩]
      ⟨[⟨0, none, none, none, 5⟩, ⟨1, none, none, none, 10⟩],
       7, false⟩).2.total_score =
      (⟨[⟨0, none, none, none, 5⟩, ⟨1, none, none, none, 10⟩], 7, false⟩ :
        GradingState).total_score ∧
    (saveGrading (fun k => k == 1) true
      [⟨0, some true, some 5, none, 5⟩, ⟨1, some false, some 3, none, 10⟩]
      ⟨[⟨0, none, none, none, 5⟩, ⟨1, none, none, none, 10⟩],
       7, false⟩).2.answers =
      (([⟨0, some true, some 5, none, 5⟩,
         ⟨1, some false, some 3, none, 10⟩] : List AnswerRow).take 1).foldl
        updateAnswerRow [⟨0, none, none, none, 5⟩, ⟨1, none, none, none, 10⟩] := by
  exact saveGrading_failure_keeps_submission_prior_state (fun k => k == 1) true
    [⟨0, some true, some 5, none, 5⟩, ⟨1, some false, some 3, none, 10⟩]
    ⟨[⟨0, none, none, none, 5⟩, ⟨1, none, none, none, 10⟩], 7, false⟩ 1
    (by intro j hj; obtain rfl := Nat.lt_one_iff.mp hj; rfl) rfl (by decide)

/-- C2 counterexample: grading a 10-mark question with
`marks_awarded = 15` is not rejected: the save succeeds, persists the
out-of-range mark and rolls it into `total_score`, even though
`15 ≤ 10` is false. -/
theorem saveGrading_accepts_out_of_range_marks :
    saveGrading (fun _ => false) false [⟨0, some true, some 15, none, 10⟩]
      ⟨[⟨0, none, none, none, 10⟩], 0, false⟩ =
    (true, ⟨[⟨0, some true, some 15, none, 10⟩], 15, true⟩) ∧
    ¬((15 : ℚ) ≤ 10) := by
  constructor
  · simp [saveGrading, runAnswerUpdates, updateAnswerRow, totalScoreOf]
  · norm_num

/-- C2 (amended): `saveGrading` performs no validation of
`marks_awarded` at all: with no storage failure it always reports
success and persists every supplied `marks_awarded` verbatim (no
clamping, no range check against `question.marks`), so the invariant
`0 ≤ marks_awarded ≤ question.marks` is not enforced; the `max`
attribute on the marks input is advisory only. -/
theorem saveGrading_writes_marks_verbatim (fail : ℕ → Bool)
    (answers : List AnswerRow) (st : GradingState)
    (hf : ∀ k, k < answers.length → fail k = false)
    (hid : answers.map (fun a => a.id) = st.answers.map (fun r => r.id))
    (hnd : (answers.map (fun a => a.id)).Nodup) :
    (saveGrading fail false answers st).1 = true ∧
    (saveGrading fail false answers st).2.answers.map
      (fun r => r.marks_awarded) = answers.map (fun a => a.marks_awarded) := by
  have hrun := runAnswerUpdates_ok answers fail st.answers hf
  constructor
  · simp [saveGrading, hrun]
  · simp [saveGrading, hrun, foldl_update_marks answers st.answers hid hnd]

/-- C2 witness: the amended theorem applied to a single answer whose
awarded 15 marks exceed its 10-mark maximum. -/
theorem saveGrading_writes_marks_verbatim_witness :
    (saveGrading (fun _ => false) false [⟨0, some true, some 15, none, 10⟩]
      ⟨[⟨0, none, none, none, 10⟩], 0, false⟩).1 = true ∧
    (saveGrading (fun _ => false) false [⟨0, some true, some 15, none, 10⟩]
      ⟨[⟨0, none, none, none, 10⟩], 0, false⟩).2.answers.map
      (fun r => r.marks_awarded) =
      ([⟨0, some true, some 15, none, 10⟩] : List AnswerRow).map
        (fun a => a.marks_awarded) := by
  exact saveGrading_writes_marks_verbatim (fun _ => false)
    [⟨0, some true, some 15, none, 10⟩] ⟨[⟨0, none, none, none, 10⟩], 0, false⟩
    (fun k _ => rfl) rfl (by simp)

/-- C5 (confirmed): a successful grading pass sets `is_graded` and
recomputes `total_score` as the sum of the supplied awarded marks; a
subsequent re-grade (any further successful pass over possibly modified
answers, starting from the post-grading state) again yields the new
sum. -/
theorem saveGrading_recomputes_total_score (fail : ℕ → Bool)
    (answers : List AnswerRow) (ms : List ℚ) (st : GradingState)
    (hf : ∀ k, k < answers.length → fail k = false)
    (hm : answers.map (fun a => a.marks_awarded) = ms.map some) :
    (saveGrading fail false answers st).1 = true ∧
    (saveGrading fail false answers st).2.is_graded = true ∧
    (saveGrading fail false answers st).2.total_score = ms.sum ∧
    (∀ (answers2 : List AnswerRow) (ms2 : List ℚ),
      (∀ k, k < answers2.length → fail k = false) →
      answers2.map (fun a => a.marks_awarded) = ms2.map some →
      (saveGrading fail false answers2
        (saveGrading fail false answers st).2).2.total_score = ms2.sum) := by
  have key : ∀ (ans : List AnswerRow) (msx : List ℚ) (stx : GradingState),
      (∀ k, k < ans.length → fail k = false) →
      ans.map (fun a => a.marks_awarded) = msx.map some →
      (saveGrading fail false ans stx).1 = true ∧
      (saveGrading fail false ans stx).2.is_graded = true ∧
      (saveGrading fail false ans stx).2.total_score = msx.sum := by
    intro ans msx stx hfx hmx
    have hrunx := runAnswerUpdates_ok ans fail stx.answers hfx
    have htotx : totalScoreOf ans = msx.sum := by
      rw [totalScoreOf_eq_sum]; exact sum_getD_of_all_some ans msx hmx
    exact ⟨by simp [saveGrading, hrunx], by simp [saveGrading, hrunx],
      by simp [saveGrading, hrunx, htotx]⟩
  obtain ⟨k1, k2, k3⟩ := key answers ms st hf hm
  exact ⟨k1, k2, k3, fun answers2 ms2 hf2 hm2 =>
    (key answers2 ms2 (saveGrading fail false answers st).2 hf2 hm2).2.2⟩

/-- C5 witness: grading two answers awarded 5 and 3 yields total 8; a
re-grade changing the first answer to 4 yields total 7. -/
theorem saveGrading_recomputes_total_score_witness :
    (saveGrading (fun _ => false) false
      [⟨0, some true, some 5, none, 5⟩, ⟨1, some false, some 3, none, 10⟩]
      ⟨[⟨0, none, none, none, 5⟩, ⟨1, none, none, none, 10⟩],
       0, false⟩).2.total_score = 8 ∧
    (saveGrading (fun _ => false) false
      [⟨0, some true, some 4, none, 5⟩, ⟨1, some false, some 3, none, 10⟩]
      ((saveGrading (fun _ => false) false
        [⟨0, some true, some 5, none, 5⟩, ⟨1, some false, some 3, none, 10⟩]
        ⟨[⟨0, none, none, none, 5⟩, ⟨1, none, none, none, 10⟩],
         0, false⟩).2)).2.total_score = 7 := by
  have h := saveGrading_recomputes_total_score (fun _ => false)
    [⟨0, some true, some 5, none, 5⟩, ⟨1, some false, some 3, none, 10⟩]
    [5, 3] ⟨[⟨0, none, none, none, 5⟩, ⟨1, none, none, none, 10⟩], 0, false⟩
    (fun k _ => rfl) rfl
  have h1 := h.2.2.1
  have h2 := h.2.2.2
    [⟨0, some true, some 4, none, 5⟩, ⟨1, some false, some 3, none, 10⟩]
    [4, 3] (fun k _ => rfl) rfl
  constructor
  · rw [h1]; norm_num
  · rw [h2]; norm_num

/-- C10 (confirmed): a grading save with some `marks_awarded` still
`null` does not reject: it succeeds, sets `is_graded = true`, computes
`total_score` as the sum over only the answers that do have awarded
marks (each `null` coerced to 0), and leaves the `null` persisted — the
submission becomes graded while some answers were never awarded
marks. -/
theorem saveGrading_null_marks_graded (fail : ℕ → Bool)
    (answers : List AnswerRow) (st : GradingState) (a : AnswerRow)
    (hf : ∀ k, k < answers.length → fail k = false)
    (hid : answers.map (fun x => x.id) = st.answers.map (fun r => r.id))
    (hnd : (answers.map (fun x => x.id)).Nodup)
    (ha : a ∈ answers) (hnull : a.marks_awarded = none) :
    (saveGrading fail false answers st).1 = true ∧
    (saveGrading fail false answers st).2.is_graded = true ∧
    (saveGrading fail false answers st).2.total_score =
      ((answers.filter (fun x => x.marks_awarded.isSome)).map
        (fun x => x.marks_awarded.getD 0)).sum ∧
    none ∈ (saveGrading fail false answers st).2.answers.map
      (fun r => r.marks_awarded) := by
  have hrun := runAnswerUpdates_ok answers fail st.answers hf
  refine ⟨by simp [saveGrading, hrun], by simp [saveGrading, hrun], ?_, ?_⟩
  · simp [saveGrading, hrun, totalScoreOf_eq_sum, sum_getD_filter_isSome]
  · have hmap := foldl_update_marks answers st.answers hid hnd
    have : none ∈ answers.map (fun x => x.marks_awarded) :=
      List.mem_map.mpr ⟨a, ha, hnull⟩
    simp only [saveGrading, hrun]
    simpa [hmap] using this

/-- C10 witness: grading with the second answer never awarded marks
succeeds, sets `is_graded`, totals only the first answer, and keeps the
`null`. -/
theorem saveGrading_null_marks_graded_witness :
    (saveGrading (fun _ => false) false
      [⟨0, some true, some 5, none, 5⟩, ⟨1, none, none, none, 10⟩]
      ⟨[⟨0, none, none, none, 5⟩, ⟨1, none, none, none, 10⟩],
       0, false⟩).1 = true ∧
    (saveGrading (fun _ => false) false
      [⟨0, some true, some 5, none, 5⟩, ⟨1, none, none, none, 10⟩]
      ⟨[⟨0, none, none, none, 5⟩, ⟨1, none, none, none, 10⟩],
       0, false⟩).2.is_graded = true ∧
    (saveGrading (fun _ => false) false
      [⟨0, some true, some 5, none, 5⟩, ⟨1, none, none, none, 10⟩]
      ⟨[⟨0, none, none, none, 5⟩, ⟨1, none, none, none, 10⟩],
       0, false⟩).2.total_score =
      ((([⟨0, some true, some 5, none, 5⟩, ⟨1, none, none, none, 10⟩] :
        List AnswerRow).filter (fun x => x.marks_awarded.isSome)).map
        (fun x => x.marks_awarded.getD 0)).sum ∧
    none ∈ (saveGrading (fun _ => false) false
      [⟨0, some true, some 5, none, 5⟩, ⟨1, none, none, none, 10⟩]
      ⟨[⟨0, none, none, none, 5⟩, ⟨1, none, none, none, 10⟩],
       0, false⟩).2.answers.map (fun r => r.marks_awarded) := by
  exact saveGrading_null_marks_graded (fun _ => false)
    [⟨0, some true, some 5, none, 5⟩, ⟨1, none, none, none, 10⟩]
    ⟨[⟨0, none, none, none, 5⟩, ⟨1, none, none, none, 10⟩], 0, false⟩
    ⟨1, none, none, none, 10⟩ (fun k _ => rfl) rfl (by simp)
    (by simp) rfl

/-!
## Claim theorems: visibility and scoring
-/

/-- C3 counterexample: an ungraded submission whose exam has
`results_published = true` has its score detail rendered in the results
list even though `is_graded = false`, refuting visibility gated on both
flags. -/
theorem scoreDetail_shown_when_ungraded :
    scoreDetailShown ⟨5, 10, false, ⟨"Mathematics", true⟩⟩ = true ∧
    (⟨5, 10, false, ⟨"Mathematics", true⟩⟩ : ResultRow).is_graded = false :=
  ⟨rfl, rfl⟩

/-- C3 (amended): in the results list the score detail is gated solely
on `exam.results_published` and the View Detail button solely on
`is_graded`; the report card includes exactly the rows with both flags
true, so a graded-but-unpublished submission is excluded from the report
card and shown as pending in the list. -/
theorem result_visibility_gating (r : ResultRow) (rows : List ResultRow) :
    (scoreDetailShown r = r.exam.results_published) ∧
    (viewDetailShown r = r.is_graded) ∧
    (r.is_graded = true → r.exam.results_published = false →
      r ∉ reportCardResults rows ∧ pendingShown r = true ∧
        viewDetailShown r = true) ∧
    (r ∈ reportCardResults rows ↔
      r ∈ rows ∧ r.is_graded = true ∧ r.exam.results_published = true) := by
  refine ⟨rfl, rfl, ?_, ?_⟩
  · intro hg hp
    refine ⟨?_, ?_, ?_⟩
    · simp [reportCardResults, List.mem_filter, hp]
    · simp [pendingShown, hp]
    · simp [viewDetailShown, hg]
  · simp [reportCardResults, List.mem_filter, and_assoc]

/-- C3 witness: a graded submission of an unpublished exam is excluded
from the report card and shows the pending badge. -/
theorem result_visibility_gating_witness :
    (⟨7, 10, true, ⟨"Science", false⟩⟩ : ResultRow) ∉
      reportCardResults [⟨7, 10, true, ⟨"Science", false⟩⟩] ∧
    pendingShown ⟨7, 10, true, ⟨"Science", false⟩⟩ = true := by
  have h := result_visibility_gating ⟨7, 10, true, ⟨"Science", false⟩⟩
    [⟨7, 10, true, ⟨"Science", false⟩⟩]
  exact ⟨(h.2.2.1 rfl rfl).1, (h.2.2.1 rfl rfl).2.1⟩

/-- C4 (confirmed): over a non-empty result set with positive total max,
the aggregate percentage of `calculateStats` is the weighted
`round(Σ total_score / Σ max_score * 100)`, not an average of
per-submission percentages. -/
theorem calculateStats_weighted_aggregate (results : List ResultRow)
    (hne : results ≠ [])
    (hm : 0 < (results.map (fun r => r.max_score)).sum) :
    (calculateStats results).average =
      round ((results.map (fun r => r.total_score)).sum /
        (results.map (fun r => r.max_score)).sum * 100) := by
  have h1 : results.foldl (fun sum r => sum + r.total_score) 0 =
      (results.map (fun r => r.total_score)).sum := by
    simpa using foldl_add_map_sum (fun r => r.total_score) results 0
  have h2 : results.foldl (fun sum r => sum + r.max_score) 0 =
      (results.map (fun r => r.max_score)).sum := by
    simpa using foldl_add_map_sum (fun r => r.max_score) results 0
  simp [calculateStats, hne, h1, h2, hm]

/-- C4 witness: submissions scoring 10/10 and 5/10 aggregate to
`round(15/20*100) = 75`; submissions scoring 10/10 and 0/40 aggregate to
the weighted 20, not the 50 an average of percentages would give. -/
theorem calculateStats_weighted_aggregate_witness :
    ([⟨10, 10, true, ⟨"Mathematics", true⟩⟩,
      ⟨5, 10, true, ⟨"English", true⟩⟩] : List ResultRow) ≠ [] ∧
    (calculateStats [⟨10, 10, true, ⟨"Mathematics", true⟩⟩,
      ⟨5, 10, true, ⟨"English", true⟩⟩]).average = 75 ∧
    (calculateStats [⟨10, 10, true, ⟨"Mathematics", true⟩⟩,
      ⟨0, 40, true, ⟨"English", true⟩⟩]).average = 20 := by
  refine ⟨by simp, ?_, ?_⟩
  · have h := calculateStats_weighted_aggregate
      [⟨10, 10, true, ⟨"Mathematics", true⟩⟩,
       ⟨5, 10, true, ⟨"English", true⟩⟩] (by simp) (by norm_num)
    rw [h]; norm_num
  · have h := calculateStats_weighted_aggregate
      [⟨10, 10, true, ⟨"Mathematics", true⟩⟩,
       ⟨0, 40, true, ⟨"English", true⟩⟩] (by simp) (by norm_num)
    rw [h]; norm_num

/-- C6 counterexample: the per-result percentage with `max_score = 0` is
`NaN` (for `total_score = 0`) or `Infinity` (for a positive
`total_score`), not 0, refuting the claim for the per-result sites. -/
theorem resultPct_zero_max_not_zero :
    resultPct 0 0 = JSNum.nan ∧ resultPct 5 0 = JSNum.posInf ∧
    JSNum.nan ≠ JSNum.fin 0 ∧ JSNum.posInf ≠ JSNum.fin 0 := by
  refine ⟨?_, ?_, by simp, by simp⟩
  · simp only [resultPct, jsDiv, jsMul100, jsRound]
    norm_num
  · simp only [resultPct, jsDiv, jsMul100, jsRound]
    norm_num

/-- C6 (amended): for a nonzero `max_score` the per-result percentage is
the rounded `total_score / max_score * 100`; for `max_score = 0` it is a
non-finite value (never a finite number, in particular not 0); only the
aggregate `calculateStats` guards the zero case, yielding average 0. -/
theorem percentage_division_guard (t m : ℚ) (results : List ResultRow)
    (hm : m ≠ 0) (hmax : (results.map (fun r => r.max_score)).sum = 0) :
    resultPct t m = JSNum.fin ((round (t / m * 100) : ℤ) : ℚ) ∧
    (∀ q : ℚ, resultPct t 0 ≠ JSNum.fin q) ∧
    (calculateStats results).average = 0 := by
  refine ⟨?_, ?_, ?_⟩
  · simp [resultPct, jsDiv, jsMul100, jsRound, hm]
  · intro q
    rcases lt_trichotomy t 0 with ht | ht | ht
    · simp [resultPct, jsDiv, jsMul100, jsRound, ht, not_lt_of_gt ht]
    · simp [resultPct, jsDiv, jsMul100, jsRound, ht]
    · simp [resultPct, jsDiv, jsMul100, jsRound, ht, not_lt_of_gt ht]
  · by_cases hres : results = []
    · simp [calculateStats, hres]
    · have h2 : results.foldl (fun sum r => sum + r.max_score) 0 = 0 := by
        rw [foldl_add_map_sum (fun r => r.max_score) results 0, hmax]
        simp
      simp [calculateStats, hres, h2]

/-- C6 witness: the amended theorem at a concrete nonzero-max result and
a result list totalling zero max. -/
theorem percentage_division_guard_witness :
    (10 : ℚ) ≠ 0 ∧
    (([⟨0, 0, true, ⟨"Mathematics", true⟩⟩] : List ResultRow).map
      (fun r => r.max_score)).sum = 0 ∧
    resultPct 5 10 = JSNum.fin ((round ((5 : ℚ) / 10 * 100) : ℤ) : ℚ) ∧
    (calculateStats [⟨0, 0, true, ⟨"Mathematics", true⟩⟩]).average = 0 := by
  have h := percentage_division_guard 5 10
    [⟨0, 0, true, ⟨"Mathematics", true⟩⟩] (by norm_num) (by simp)
  exact ⟨by norm_num, by simp, h.1, h.2.2⟩

/-- C7 (confirmed): all three letter-grade sites (`getGrade` of the
results list, `getResultGrade` of the report rows, and the grade of
`calculateStats`) implement the single bucketing table
`pct ≥ 90 → A, ≥80 → B, ≥70 → C, ≥60 → D, else F` on the percentage
they are fed; the boundary values resolve as 90→A, 89→B, 70→C, 69→D,
60→D, 59→F; and the pass badge shows Passed exactly when `pct ≥ 60`. -/
theorem letter_grade_bucketing :
    (∀ pct : ℚ, (getGrade (.fin pct)).1 = specLetter pct) ∧
    (∀ t m : ℚ, 0 < m → getResultGrade t m = specLetter (t / m * 100)) ∧
    (∀ results : List ResultRow, results ≠ [] →
      0 < (results.map (fun r => r.max_score)).sum →
      (calculateStats results).grade =
        specLetter ((results.map (fun r => r.total_score)).sum /
          (results.map (fun r => r.max_score)).sum * 100)) ∧
    specLetter 90 = .A ∧ specLetter 89 = .B ∧ specLetter 70 = .C ∧
    specLetter 69 = .D ∧ specLetter 60 = .D ∧ specLetter 59 = .F ∧
    (∀ pct : ℚ, showsPassed (.fin pct) = decide (60 ≤ pct)) := by
  refine ⟨?_, ?_, ?_, ?_, ?_, ?_, ?_, ?_, ?_, ?_⟩
  · intro pct
    simp only [getGrade, jsGe, specLetter, decide_eq_true_eq]
    split_ifs <;> rfl
  · intro t m hm0
    simp only [getResultGrade, jsDiv, jsMul100, jsGe, hm0.ne',
      if_false, specLetter, decide_eq_true_eq]
  · intro results hne hm
    have h1 : results.foldl (fun sum r => sum + r.total_score) 0 =
        (results.map (fun r => r.total_score)).sum := by
      simpa using foldl_add_map_sum (fun r => r.total_score) results 0
    have h2 : results.foldl (fun sum r => sum + r.max_score) 0 =
        (results.map (fun r => r.max_score)).sum := by
      simpa using foldl_add_map_sum (fun r => r.max_score) results 0
    simp [calculateStats, hne, h1, h2, hm, specLetter]
  · norm_num [specLetter]
  · norm_num [specLetter]
  · norm_num [specLetter]
  · norm_num [specLetter]
  · norm_num [specLetter]
  · norm_num [specLetter]
  · intro pct
    simp [showsPassed, jsGe]

/-- C7 witness: the bucketing theorem applied at concrete boundary
inputs, with its hypotheses discharged. -/
theorem letter_grade_bucketing_witness :
    (getGrade (.fin 89)).1 = specLetter 89 ∧
    (0 : ℚ) < 100 ∧ getResultGrade 59 100 = specLetter ((59 : ℚ) / 100 * 100) ∧
    showsPassed (.fin 60) = decide ((60 : ℚ) ≤ 60) := by
  exact ⟨letter_grade_bucketing.1 89,
    by norm_num,
    letter_grade_bucketing.2.1 59 100 (by norm_num),
    letter_grade_bucketing.2.2.2.2.2.2.2.2.2 60⟩

/-!
## Claim theorems: role assignment
-/

/-- Every element of a list with empty filtrate fails the predicate. -/
theorem all_not_of_filter_nil {α : Type} (p : α → Bool) (l : List α)
    (h : l.filter p = []) : ∀ x ∈ l, p x = false := by
  induction l with
  | nil => intro x hx; cases hx
  | cons a t ih =>
    intro x hx
    simp only [List.filter_cons] at h
    by_cases hpa : p a = true
    · rw [if_pos hpa] at h; cases h
    · have hpa' : p a = false := eq_false_of_ne_true hpa
      rw [if_neg hpa] at h
      rcases List.mem_cons.mp hx with rfl | hxt
      · exact hpa'
      · exact ih h x hxt

/-- `any` is false when every element fails the predicate. -/
theorem any_eq_false_of_all_not {α : Type} (p : α → Bool) (l : List α)
    (h : ∀ x ∈ l, p x = false) : l.any p = false := by
  induction l with
  | nil => rfl
  | cons a t ih =>
    simp [List.any_cons, h a (by simp), ih (fun x hx => h x (by simp [hx]))]

/-- The filtrate is empty when every element fails the predicate. -/
theorem filter_eq_nil_of_all_not {α : Type} (p : α → Bool) (l : List α)
    (h : ∀ x ∈ l, p x = false) : l.filter p = [] := by
  induction l with
  | nil => rfl
  | cons a t ih =>
    simp [List.filter_cons, h a (by simp), ih (fun x hx => h x (by simp [hx]))]

/-- The role row written by the role upsert of `handle_new_user` is in
the resulting table, whether or not the insert was skipped by the
conflict clause. -/
theorem mem_role_upsert (roles : List RoleRow) (uid : ℕ) (r : AppRole) :
    (⟨uid, r⟩ : RoleRow) ∈
      (if roles.any (fun x => x.user_id = uid && x.role = r) then roles
       else roles ++ [⟨uid, r⟩]) := by
  by_cases h : roles.any (fun x => x.user_id = uid && x.role = r) = true
  · rw [if_pos h]
    obtain ⟨x, hx, hpx⟩ := List.any_eq_true.mp h
    obtain ⟨xu, xr⟩ := x
    simp only [Bool.and_eq_true, decide_eq_true_eq] at hpx
    obtain ⟨rfl, rfl⟩ := hpx
    exact hx
  · rw [if_neg h]
    exact List.mem_append_right _ (by simp)

/-- The result of `handle_new_user` when the text role casts to `r`. -/
theorem handle_new_user_ok (mf : Bool) (db : IdentityDB) (uid : ℕ)
    (ro fn : Option String) (em : String) (r : AppRole)
    (hs : parseAppRole (ro.getD "student") = some r) :
    handle_new_user mf db uid ro fn em = .ok
      ⟨if db.profiles.any (fun p => p.user_id = uid) then db.profiles
        else db.profiles ++ [⟨uid, fn.getD em, em⟩],
       if db.user_roles.any (fun x => x.user_id = uid && x.role = r)
        then db.user_roles else db.user_roles ++ [⟨uid, r⟩],
       if mf then db.app_metadata
        else setMetaRole db.app_metadata uid (ro.getD "student")⟩ := by
  simp only [handle_new_user]
  rw [hs]

/-- C8 (confirmed): `handle_new_user` is idempotent over profile and
role rows: two invocations for the same user id (each with a valid or
absent requested role) both succeed, leave exactly one profile row for
the user, at most one role row per (user, role), and a repeated grant of
the same role changes neither table. -/
theorem handle_new_user_idempotent (mf1 mf2 : Bool) (db : IdentityDB)
    (uid : ℕ) (role1 role2 fn1 fn2 : Option String) (em1 em2 : String)
    (r1 r2 : AppRole)
    (h1 : parseAppRole (role1.getD "student") = some r1)
    (h2 : parseAppRole (role2.getD "student") = some r2)
    (hp : db.profiles.filter (fun p => p.user_id = uid) = [])
    (hr : db.user_roles.filter (fun x => x.user_id = uid) = []) :
    ∃ db1 db2,
      handle_new_user mf1 db uid role1 fn1 em1 = .ok db1 ∧
      handle_new_user mf2 db1 uid role2 fn2 em2 = .ok db2 ∧
      (db2.profiles.filter (fun p => p.user_id = uid)).length = 1 ∧
      (∀ x : AppRole,
        (db2.user_roles.filter
          (fun t => t.user_id = uid && t.role = x)).length ≤ 1) ∧
      (r2 = r1 → db2.user_roles = db1.user_roles ∧
        db2.profiles = db1.profiles) := by
  have hnp := all_not_of_filter_nil _ _ hp
  have hnr := all_not_of_filter_nil _ _ hr
  have hpany : db.profiles.any (fun p => p.user_id = uid) = false :=
    any_eq_false_of_all_not _ _ hnp
  have hr1any : db.user_roles.any
      (fun x => x.user_id = uid && x.role = r1) = false :=
    any_eq_false_of_all_not _ _ (fun x hx => by simp [hnr x hx])
  have hfilr : ∀ x : AppRole, db.user_roles.filter
      (fun t => t.user_id = uid && t.role = x) = [] :=
    fun x => filter_eq_nil_of_all_not _ _ (fun t ht => by simp [hnr t ht])
  have hcall1 := handle_new_user_ok mf1 db uid role1 fn1 em1 r1 h1
  rw [hpany, hr1any] at hcall1
  simp only [Bool.false_eq_true, if_false] at hcall1
  have hp2any : (db.profiles ++ [(⟨uid, fn1.getD em1, em1⟩ : ProfileRow)]).any
      (fun p => p.user_id = uid) = true := by
    simp [List.any_append]
  by_cases hrr : r2 = r1
  · subst hrr
    have hr2any : (db.user_roles ++ [(⟨uid, r2⟩ : RoleRow)]).any
        (fun x => x.user_id = uid && x.role = r2) = true := by
      simp [List.any_append]
    have hcall2 := handle_new_user_ok mf2
      ⟨db.profiles ++ [⟨uid, fn1.getD em1, em1⟩],
       db.user_roles ++ [⟨uid, r2⟩],
       if mf1 then db.app_metadata
        else setMetaRole db.app_metadata uid (role1.getD "student")⟩
      uid role2 fn2 em2 r2 h2
    rw [show (⟨db.profiles ++ [⟨uid, fn1.getD em1, em1⟩],
       db.user_roles ++ [⟨uid, r2⟩],
       if mf1 then db.app_metadata
        else setMetaRole db.app_metadata uid (role1.getD "student")⟩ :
       IdentityDB).profiles = db.profiles ++ [⟨uid, fn1.getD em1, em1⟩]
       from rfl] at hcall2
    rw [show (⟨db.profiles ++ [⟨uid, fn1.getD em1, em1⟩],
       db.user_roles ++ [⟨uid, r2⟩],
       if mf1 then db.app_metadata
        else setMetaRole db.app_metadata uid (role1.getD "student")⟩ :
       IdentityDB).user_roles = db.user_roles ++ [⟨uid, r2⟩] from rfl] at hcall2
    rw [hp2any, hr2any] at hcall2
    simp only [if_true] at hcall2
    refine ⟨_, _, hcall1, hcall2, ?_, ?_, ?_⟩
    · simp [List.filter_append, hp]
    · intro x
      by_cases hx : r2 = x <;>
        simp [List.filter_append, hfilr x, List.filter_cons, hx]
    · intro _
      exact ⟨rfl, rfl⟩
  · have hr2any : (db.user_roles ++ [(⟨uid, r1⟩ : RoleRow)]).any
        (fun x => x.user_id = uid && x.role = r2) = false := by
      apply any_eq_false_of_all_not
      intro x hx
      rcases List.mem_append.mp hx with hxl | hxr
      · simp [hnr x hxl]
      · have : x = (⟨uid, r1⟩ : RoleRow) := by simpa using hxr
        subst this
        simp only [Bool.and_eq_true, decide_eq_true_eq, not_and,
          Bool.and_eq_false_iff, decide_eq_false_iff_not]
        exact Or.inr (fun h => hrr h.symm)
    have hcall2 := handle_new_user_ok mf2
      ⟨db.profiles ++ [⟨uid, fn1.getD em1, em1⟩],
       db.user_roles ++ [⟨uid, r1⟩],
       if mf1 then db.app_metadata
        else setMetaRole db.app_metadata uid (role1.getD "student")⟩
      uid role2 fn2 em2 r2 h2
    rw [show (⟨db.profiles ++ [⟨uid, fn1.getD em1, em1⟩],
       db.user_roles ++ [⟨uid, r1⟩],
       if mf1 then db.app_metadata
        else setMetaRole db.app_metadata uid (role1.getD "student")⟩ :
       IdentityDB).profiles = db.profiles ++ [⟨uid, fn1.getD em1, em1⟩]
       from rfl] at hcall2
    rw [show (⟨db.profiles ++ [⟨uid, fn1.getD em1, em1⟩],
       db.user_roles ++ [⟨uid, r1⟩],
       if mf1 then db.app_metadata
        else setMetaRole db.app_metadata uid (role1.getD "student")⟩ :
       IdentityDB).user_roles = db.user_roles ++ [⟨uid, r1⟩] from rfl] at hcall2
    rw [hp2any, hr2any] at hcall2
    simp only [if_true, Bool.false_eq_true, if_false] at hcall2
    refine ⟨_, _, hcall1, hcall2, ?_, ?_, ?_⟩
    · simp [List.filter_append, hp]
    · intro x
      by_cases hx1 : r1 = x <;> by_cases hx2 : r2 = x <;>
        simp [List.filter_append, hfilr x, List.filter_cons, hx1, hx2,
          List.append_assoc]
      · exact absurd (hx1.trans hx2.symm) (fun h => hrr h.symm)
    · intro h
      exact absurd h hrr

/-- C8 witness: signing up user 1 twice requesting the teacher role on
an empty database. -/
theorem handle_new_user_idempotent_witness :
    ∃ db1 db2,
      handle_new_user false ⟨[], [], []⟩ 1 (some "teacher") none "t@x" =
        .ok db1 ∧
      handle_new_user false db1 1 (some "teacher") none "t@x" = .ok db2 ∧
      (db2.profiles.filter (fun p => p.user_id = 1)).length = 1 ∧
      (∀ x : AppRole,
        (db2.user_roles.filter
          (fun t => t.user_id = 1 && t.role = x)).length ≤ 1) ∧
      (AppRole.teacher = AppRole.teacher →
        db2.user_roles = db1.user_roles ∧ db2.profiles = db1.profiles) := by
  exact handle_new_user_idempotent false false ⟨[], [], []⟩ 1
    (some "teacher") (some "teacher") none none "t@x" "t@x"
    .teacher .teacher rfl rfl rfl rfl

/-- C9 counterexample: a signup requesting the malformed role
`superuser` does not fall back to the default role — the enum cast
raises and the whole account creation fails. -/
theorem handle_new_user_malformed_role_fails :
    handle_new_user false ⟨[], [], []⟩ 1 (some "superuser") none "a@b" =
      .error "invalid input value for enum app_role" := by rfl

/-- C9 (amended): the assigned role is the requested one when it is a
valid enum label and the default `student` when no role is supplied; but
a malformed (non-enum) requested role makes the cast raise and the
account creation fail — there is no fallback for malformed values. -/
theorem handle_new_user_role_fallback (mf : Bool) (db : IdentityDB)
    (uid : ℕ) (fn : Option String) (em : String) :
    (∃ db1, handle_new_user mf db uid none fn em = .ok db1 ∧
      (⟨uid, .student⟩ : RoleRow) ∈ db1.user_roles) ∧
    (∀ (s : String) (r : AppRole), parseAppRole s = some r →
      ∃ db1, handle_new_user mf db uid (some s) fn em = .ok db1 ∧
        (⟨uid, r⟩ : RoleRow) ∈ db1.user_roles) ∧
    (∀ s : String, parseAppRole s = none →
      handle_new_user mf db uid (some s) fn em =
        .error "invalid input value for enum app_role") := by
  refine ⟨?_, ?_, ?_⟩
  · exact ⟨_, handle_new_user_ok mf db uid none fn em .student rfl,
      mem_role_upsert db.user_roles uid .student⟩
  · intro s r hs
    exact ⟨_, handle_new_user_ok mf db uid (some s) fn em r (by simpa using hs),
      mem_role_upsert db.user_roles uid r⟩
  · intro s hs
    simp only [handle_new_user]
    rw [show parseAppRole ((some s).getD "student") = none by simpa using hs]

/-- C9 witness: on an empty database, an absent role yields `student`, a
requested `teacher` role yields `teacher`, and the malformed `badrole`
fails the signup. -/
theorem handle_new_user_role_fallback_witness :
    (∃ db1, handle_new_user false ⟨[], [], []⟩ 1 none none "a@b" = .ok db1 ∧
      (⟨1, .student⟩ : RoleRow) ∈ db1.user_roles) ∧
    (∃ db1, handle_new_user false ⟨[], [], []⟩ 1 (some "teacher") none "a@b" =
        .ok db1 ∧ (⟨1, .teacher⟩ : RoleRow) ∈ db1.user_roles) ∧
    handle_new_user false ⟨[], [], []⟩ 1 (some "badrole") none "a@b" =
      .error "invalid input value for enum app_role" := by
  have h := handle_new_user_role_fallback false ⟨[], [], []⟩ 1 none "a@b"
  exact ⟨h.1, h.2.1 "teacher" .teacher rfl, h.2.2 "badrole" rfl⟩
